import Mathlib

/-!
# Verification of the streaming chat session pipeline

Shallow embedding of the chat client's message/streaming logic, translated
from `src/Chat_Ai/web/components/app.js` (class `ChatApp`, with the variant in
`src/unnamed/part_000`) and `src/Chat_Ai/web/components/api.js` (class
`ApiClient`).

The JavaScript state relevant to the claims is:
- `this.messageHistory` : the ordered message log; entries are plain objects
  `{role, content}` (no stored sequence field — a message's sequence number is
  the array index it is rendered with, `createMessageElement(message, index)`
  stores it in `dataset.index`);
- the DOM `#messagesArea` children: one element per displayed message, each
  carrying the `dataset.index` assigned at creation/render time;
- `this.isStreaming` / `this.streamController`: declared in the constructor
  and never written or read again anywhere in the sources.

Streams are consumed by `handleStreamingResponse` with a `for await` loop.
One run of a stream is modelled by the list of chunks the loop actually
received, in arrival order, plus a flag saying whether iteration then raised
an error instead of completing (`StreamRun`).

Two views of the same source code are used:
- a sequential model (`UIState`, `sendMessage`, `regenerateMessage`,
  `deleteMessage`, `handleStreamingResponse`) where each operation runs to
  completion with a given stream run — this is the behaviour of the code when
  the event loop interleaves nothing between the suspension points of one
  operation;
- an event-loop model (`ChatAppState`, `step`) where stream consumption is
  split into its suspension points (`sendStart`, `chunk`, `complete`, `fail`)
  so that actions arriving while a stream is in flight can be expressed.

JavaScript string primitives that the code calls (`String.prototype.trim`,
`String.prototype.split`) are embedded as structural-recursive functions on
the character data so that concrete states evaluate inside the kernel.
-/

namespace ChatAi

/-- The `role` field of a message object: `'user'` or `'assistant'`. -/
inductive Role where
  | user
  | assistant
deriving DecidableEq, Repr

/-- One entry of `this.messageHistory`: a plain `{role, content}` object.
The source stores no sequence number inside the message. -/
structure Message where
  role : Role
  content : String
deriving DecidableEq, Repr

/-! ## JavaScript string primitives

`String.prototype.trim` and `String.prototype.split(sep)` as used by the
source. Defined over the character list so they are kernel-computable. -/

/-- Embedding of `String.prototype.trim`: strip leading and trailing
whitespace. -/
def jsTrim (s : String) : String :=
  ⟨((s.data.dropWhile Char.isWhitespace).reverse.dropWhile Char.isWhitespace).reverse⟩

/-- Helper for `jsSplit`: split the remaining characters at every occurrence
of `sep`, `acc` holding the (reversed) characters of the current field. -/
def jsSplitAux (sep : Char) : List Char → List Char → List String
  | [], acc => [⟨acc.reverse⟩]
  | c :: cs, acc =>
    if c = sep then ⟨acc.reverse⟩ :: jsSplitAux sep cs []
    else jsSplitAux sep cs (c :: acc)

/-- Embedding of `String.prototype.split(sep)` for a one-character separator
(the source only splits on `'\n'`): every occurrence of `sep` separates two
fields, empty fields are kept. -/
def jsSplit (sep : Char) (s : String) : List String :=
  jsSplitAux sep s.data []

/-! ## The streaming accumulation loop

`handleStreamingResponse` accumulates `assistantMessage += chunk` over the
`for await` loop, strictly in arrival order. -/

/-- The `for await (const chunk of stream) assistantMessage += chunk` loop:
fold the delivered chunks, in order, onto the buffer. -/
def streamLoop (buf : String) : List String → String
  | [] => buf
  | c :: cs => streamLoop (buf ++ c) cs

/-- The specification's notion of "the full concatenation c1 + c2 + ... + cn",
written independently of the code's left fold. -/
def specConcat (l : List String) : String :=
  l.foldr (fun c r => c ++ r) ""

/-- One run of a chunk stream as observed by the consuming loop: the chunks
that were delivered (in arrival order) and whether iterating the stream then
threw an error instead of completing. -/
structure StreamRun where
  delivered : List String
  failed : Bool
deriving DecidableEq, Repr

/-! ## Sequential model of `ChatApp` (app.js lines 774–1426)

`UIState` carries `this.messageHistory` together with the displayed message
elements of `#messagesArea`.  Each element records the `index` it was created
or last re-rendered with (`dataset.index`, the code's materialisation of a
message's sequence number) and the text currently shown in its
`.message-content` node.  DOM-only chrome (avatars, action buttons, typing
indicator, scrolling) is not part of the state.  The abstract `render`
parameter stands for the text-to-markup step applied when content is
displayed (`textContent` in app.js's streaming loop, `DOMPurify.sanitize ∘
marked.parse` in part_000's). -/

/-- One displayed message element: its `dataset.index` and the text shown in
its content node. -/
structure MsgElem where
  idx : Nat
  role : Role
  shown : String
deriving DecidableEq, Repr

/-- State of one `ChatApp` session: the in-memory log and the displayed
transcript. -/
structure UIState where
  messageHistory : List Message
  display : List MsgElem
deriving DecidableEq, Repr

/-- Source `createMessageElement(message, index)`: an element carrying
`dataset.index = index`, showing the rendered content (an empty content
leaves the node empty: `if (message.content) { ... }`). -/
def createMessageElement (render : String → String) (index : Nat) (m : Message) : MsgElem :=
  { idx := index, role := m.role, shown := if m.content = "" then "" else render m.content }

/-- Source `renderMessages()`: rebuild the whole display from `messageHistory`,
creating element `i` with `createMessageElement(message, i)`. -/
def renderMessages (render : String → String) (history : List Message) : List MsgElem :=
  history.enum.map (fun p => createMessageElement render p.1 p.2)

/-- Source `addMessageToUI(message)`: append
`createMessageElement(message, this.messageHistory.length)` to the messages
area, then push the message onto `messageHistory` only when its role is
`'user'`. -/
def addMessageToUI (render : String → String) (s : UIState) (m : Message) : UIState :=
  { messageHistory :=
      if m.role = Role.user then s.messageHistory ++ [m] else s.messageHistory
    display := s.display ++ [createMessageElement render s.messageHistory.length m] }

/-- Overwrite the shown text of the most recently appended element — the
effect of assigning to the streaming placeholder's `contentDiv`, which is the
last element of the messages area while a sequential operation runs. -/
def updateLastShown (d : List MsgElem) (t : String) : List MsgElem :=
  d.dropLast ++
    (match d.getLast? with
     | some e => [{ e with shown := t }]
     | none => [])

/-- Source `handleStreamingResponse(stream)` (app.js lines 1378–1406, part_000 lines
588–620): append the empty assistant placeholder via `addMessageToUI`, fold
the delivered chunks onto the local `assistantMessage` buffer, then
- on normal completion: show the rendered buffer (cursor removed) and push
  `{role:'assistant', content: assistantMessage}` onto `messageHistory`;
- on an error thrown while iterating: show the fixed text
  `'Error receiving response'` and leave `messageHistory` untouched (the
  `catch` block pushes nothing).
Per-chunk display updates always show the rendered cumulative buffer, so only
the final display state is carried. -/
def handleStreamingResponse (render : String → String) (s : UIState) (run : StreamRun) :
    UIState :=
  let s1 := addMessageToUI render s { role := Role.assistant, content := "" }
  let assistantMessage := streamLoop "" run.delivered
  if run.failed then
    { s1 with display := updateLastShown s1.display "Error receiving response" }
  else
    { messageHistory :=
        s1.messageHistory ++ [{ role := Role.assistant, content := assistantMessage }]
      display := updateLastShown s1.display (render assistantMessage) }

/-- Source `sendMessage()` (app.js lines 1321–1376): trim the composer input; an
empty result returns without any state change; otherwise append the user
message via `addMessageToUI` and consume the response stream.  (The chat is
assumed selected and the transport assumed to open: `this.currentChat` set
and `window.apiClient` present, the scenario of every claim.) -/
def sendMessage (render : String → String) (s : UIState) (input : String)
    (run : StreamRun) : UIState :=
  let content := jsTrim input
  if content = "" then s
  else handleStreamingResponse render
    (addMessageToUI render s { role := Role.user, content := content }) run

/-- The search loop of `regenerateMessage`:
`for (let i = index - 1; i >= 0; i--) if (messageHistory[i].role === 'user')`
— the greatest `i < index` whose message has role `'user'`.  (For
`index - 1 ≥ messageHistory.length` the source would read `.role` of
`undefined` and throw; theorems therefore restrict `index` to the rendered
range `index ≤ messageHistory.length`.) -/
def findLastUserBefore (history : List Message) : Nat → Option Nat
  | 0 => none
  | i + 1 =>
    if (history.get? i).map Message.role = some Role.user then some i
    else findLastUserBefore history i

/-- Source `regenerateMessage(index)` (app.js lines 1275–1312, part_000 lines
844–879): find the last user message before `index`; when none exists return
silently.  Otherwise truncate `messageHistory` to
`slice(0, userMessageIndex + 1)`, re-render, and resend that user message's
`content` (second component: the text passed to `apiClient.sendMessage`),
consuming the new stream — no new user message is appended. -/
def regenerateMessage (render : String → String) (s : UIState) (index : Nat)
    (run : StreamRun) : UIState × Option String :=
  match findLastUserBefore s.messageHistory index with
  | none => (s, none)
  | some u =>
    let history1 := s.messageHistory.take (u + 1)
    ((handleStreamingResponse render ⟨history1, renderMessages render history1⟩ run),
      (s.messageHistory.get? u).map Message.content)

/-- Source `deleteMessage(index)` (app.js lines 1314–1319): when the user confirms,
`splice(index, 1)` the log and re-render; otherwise no change.  No state
other than the confirm dialog is consulted. -/
def deleteMessage (render : String → String) (s : UIState) (index : Nat)
    (confirmed : Bool) : UIState :=
  if confirmed then
    let h := s.messageHistory.eraseIdx index
    ⟨h, renderMessages render h⟩
  else s

/-- The user-initiated operations of the sequential model. -/
inductive Op where
  | send (input : String) (run : StreamRun)
  | regen (index : Nat) (run : StreamRun)
  | del (index : Nat) (confirmed : Bool)
deriving DecidableEq, Repr

/-- Run one operation to completion. -/
def execOp (render : String → String) (s : UIState) : Op → UIState
  | Op.send input run => sendMessage render s input run
  | Op.regen index run => (regenerateMessage render s index run).1
  | Op.del index confirmed => deleteMessage render s index confirmed

/-- Run a list of operations in order. -/
def execOps (render : String → String) (s : UIState) : List Op → UIState
  | [] => s
  | op :: ops => execOps render (execOp render s op) ops

/-- An operation whose stream run (if any) completes without error. -/
def opOk : Op → Bool
  | Op.send _ run => !run.failed
  | Op.regen _ run => !run.failed
  | Op.del _ _ => true

/-- The displayed `dataset.index` values are exactly `0, 1, …, n-1` in order,
and every log entry has a displayed element (the transcript reflects the
log). -/
def idxAligned (s : UIState) : Prop :=
  s.display.map MsgElem.idx = List.range s.display.length ∧
  s.display.length = s.messageHistory.length

instance (s : UIState) : Decidable (idxAligned s) := by
  unfold idxAligned; infer_instance

/-- The text currently shown by the newest displayed element. -/
def lastShown (s : UIState) : Option String :=
  s.display.getLast?.map MsgElem.shown

/-! ## Event-loop model of `ChatApp`

The same source code, with stream consumption split at its `await`
suspension points so that actions issued while a stream is in flight can be
expressed.  `streams` holds the local `assistantMessage` buffer of every
`handleStreamingResponse` call that is currently suspended inside its
`for await` loop; nothing in the source reads or limits this collection —
`this.isStreaming` and `this.streamController` are assigned in the
constructor and never touched again.  A session is idle exactly when
`streams = []`. -/

/-- Event-loop view of one session: the log plus the buffers of all in-flight
streams. -/
structure ChatAppState where
  messageHistory : List Message
  streams : List String
deriving DecidableEq, Repr

/-- Replace the element at position `i` (no change when out of range). -/
def modifyAt {α : Type} (f : α → α) : List α → Nat → List α
  | [], _ => []
  | a :: as, 0 => f a :: as
  | a :: as, i + 1 => a :: modifyAt f as i

/-- One event-loop turn touching a session. -/
inductive Ev where
  /-- Turn where `sendMessage()` runs synchronously up to its first `await`: trim the
  input, return when empty, otherwise append the user message and open a
  stream (a new in-flight buffer, initialised to `''`). -/
  | sendStart (input : String)
  /-- Turn where `regenerateMessage(index)` runs up to its first `await`: silent return
  when no prior user message exists, otherwise truncate the log and open a
  stream. -/
  | regenStart (index : Nat)
  /-- The `for await` loop of in-flight stream `i` receives one chunk:
  `assistantMessage += chunk`. -/
  | chunk (i : Nat) (c : String)
  /-- In-flight stream `i` completes: its buffer is pushed onto the log as
  the assistant message and the handler returns. -/
  | complete (i : Nat)
  /-- Iterating in-flight stream `i` throws: the `catch` block only rewrites
  the display, the handler returns with the log untouched. -/
  | fail (i : Nat)
  /-- Turn where `deleteMessage(index)` runs: when confirmed, `splice(index, 1)` the log. -/
  | deleteMsg (index : Nat) (confirmed : Bool)
deriving DecidableEq, Repr

/-- Effect of one event-loop turn, translated from the same functions as the
sequential model. -/
def step (s : ChatAppState) : Ev → ChatAppState
  | Ev.sendStart input =>
    let content := jsTrim input
    if content = "" then s
    else
      { messageHistory := s.messageHistory ++ [{ role := Role.user, content := content }]
        streams := s.streams ++ [""] }
  | Ev.regenStart index =>
    match findLastUserBefore s.messageHistory index with
    | none => s
    | some u =>
      { messageHistory := s.messageHistory.take (u + 1)
        streams := s.streams ++ [""] }
  | Ev.chunk i c =>
    { s with streams := modifyAt (fun b => b ++ c) s.streams i }
  | Ev.complete i =>
    match s.streams.get? i with
    | none => s
    | some buf =>
      { messageHistory := s.messageHistory ++ [{ role := Role.assistant, content := buf }]
        streams := s.streams.eraseIdx i }
  | Ev.fail i =>
    match s.streams.get? i with
    | none => s
    | some _ => { s with streams := s.streams.eraseIdx i }
  | Ev.deleteMsg index confirmed =>
    if confirmed then { s with messageHistory := s.messageHistory.eraseIdx index }
    else s

/-- Run a list of event-loop turns in order. -/
def stepsRun (s : ChatAppState) : List Ev → ChatAppState
  | [] => s
  | e :: es => stepsRun (step s e) es

/-! ## Specification-modelled session controller (cancel)

The sources contain no cancel operation: the `StreamHandle` fields
(`this.isStreaming`, `this.streamController`, app.js lines 778–779) are
declared in the constructor and never used, and no function anywhere in the
repository signals, drains or finalises an active stream.  The definitions
below are therefore taken from the specification, not from source code. -/

/-- The `streamState` of the specification's Session. -/
inductive StreamState where
  | Idle
  | Sending
  | Streaming
  | Cancelling
deriving DecidableEq, Repr

/-- Modelled from the spec: the Session of §3 — finalized messages, the
stream state, and the single StreamHandle's accumulation buffer (`some`
exactly while a handle is alive; the streaming placeholder's content is the
buffer, committed to `messages` on finalization). -/
structure SpecSession where
  messages : List Message
  streamState : StreamState
  buffer : Option String
deriving DecidableEq, Repr

/-- Modelled from the spec: chunk arrival (§4.1 effect 4) — while
`Streaming`, append the chunk text to the StreamHandle's accumulation
buffer; in any other state no chunk is consumed. -/
def specChunk (s : SpecSession) (c : String) : SpecSession :=
  match s.streamState, s.buffer with
  | StreamState.Streaming, some b =>
    { s with buffer := some (b ++ c) }
  | _, _ => s

/-- Modelled from the spec: `cancel(sessionId)` (§4.1) — absent from the
sources.  Valid while `Sending` or `Streaming`: finalize the assistant
Message with whatever was accumulated, destroy the StreamHandle, return to
`Idle` (while `Sending` no StreamHandle exists yet, so nothing is
finalized).  A no-op, not an error, while `Idle`. -/
def cancel (s : SpecSession) : SpecSession :=
  match s.streamState with
  | StreamState.Idle => s
  | StreamState.Sending => { messages := s.messages, streamState := StreamState.Idle, buffer := none }
  | StreamState.Streaming =>
    { messages := s.messages ++ [{ role := Role.assistant, content := s.buffer.getD "" }]
      streamState := StreamState.Idle
      buffer := none }
  | StreamState.Cancelling => s

/-! ## `ApiClient.parseJsonl` (api.js lines 198–223)

The JSON values produced by the browser's `JSON.parse` are abstracted by the
view a line's object presents to this function: the truthiness of `obj.info`
and, when `obj.chats && obj.chats.messages` is truthy, the elements of that
messages array (an arbitrary payload type `α`).  A line on which `JSON.parse`
throws is viewed as `none` (the `catch` block only warns). -/

/-- Abstract view of one parsed JSONL line's object. -/
structure JsonLine (α : Type) where
  /-- truthiness of `obj.info` -/
  info : Bool
  /-- Holds `some` of the elements of `obj.chats.messages` when that path is
  truthy, `none` otherwise -/
  chatsMessages : Option (List α)

/-- Source `parseJsonl(jsonlText)`: `[]` for a falsy argument (`null`/`undefined`
modelled as `none`, and the empty string); otherwise trim, split on
newlines, and fold over the lines, skipping blank lines, lines `JSON.parse`
rejects, and objects with a truthy `info`, and pushing the elements of
`obj.chats.messages` in order. -/
def parseJsonl {α : Type} (p : String → Option (JsonLine α))
    (jsonlText : Option String) : List α :=
  match jsonlText with
  | none => []
  | some t =>
    if t = "" then []
    else
      (jsSplit '\n' (jsTrim t)).foldl
        (fun acc line =>
          if jsTrim line = "" then acc
          else
            match p line with
            | none => acc
            | some obj =>
              if obj.info then acc
              else
                match obj.chatsMessages with
                | some msgs => acc ++ msgs
                | none => acc)
        []

/-- The messages one line contributes, per the claim: the `chats.messages`
elements of a well-formed line, nothing for blank, unparseable or
`info`-carrying lines.  Written from the claim's words as the
specification-side description of `parseJsonl`. -/
def lineMessages {α : Type} (p : String → Option (JsonLine α)) (line : String) : List α :=
  if jsTrim line = "" then []
  else
    match p line with
    | none => []
    | some obj => if obj.info then [] else obj.chatsMessages.getD []

/-- Specification-side result for `parseJsonl`: the in-order concatenation of
every line's contribution; `[]` on falsy input. -/
def parseJsonlSpecResult {α : Type} (p : String → Option (JsonLine α))
    (jsonlText : Option String) : List α :=
  match jsonlText with
  | none => []
  | some t =>
    if t = "" then []
    else ((jsSplit '\n' (jsTrim t)).map (lineMessages p)).flatten

/-! ## Supporting lemmas -/

theorem streamLoop_eq_specConcat (l : List String) :
    ∀ b : String, streamLoop b l = b ++ specConcat l := by
  induction l with
  | nil => intro b; simp [streamLoop, specConcat]
  | cons c cs ih =>
    intro b
    show streamLoop (b ++ c) cs = b ++ specConcat (c :: cs)
    rw [ih (b ++ c)]
    show b ++ c ++ specConcat cs = b ++ (c ++ specConcat cs)
    rw [String.append_assoc]

theorem updateLastShown_concat (d : List MsgElem) (e : MsgElem) (t : String) :
    updateLastShown (d ++ [e]) t = d ++ [{ e with shown := t }] := by
  simp [updateLastShown]

/-- Closed form of `handleStreamingResponse`: the placeholder element is the
last one appended, so the final state is the old one extended with an
assistant element at index `messageHistory.length`, plus — only on
success — the accumulated assistant message in the log. -/
theorem handleStreamingResponse_eq (render : String → String) (s : UIState)
    (run : StreamRun) :
    handleStreamingResponse render s run =
      if run.failed then
        ⟨s.messageHistory,
         s.display ++
           [⟨s.messageHistory.length, Role.assistant, "Error receiving response"⟩]⟩
      else
        ⟨s.messageHistory ++ [⟨Role.assistant, specConcat run.delivered⟩],
         s.display ++
           [⟨s.messageHistory.length, Role.assistant,
             render (specConcat run.delivered)⟩]⟩ := by
  unfold handleStreamingResponse addMessageToUI createMessageElement
  rw [streamLoop_eq_specConcat]
  cases hf : run.failed <;> simp [hf, updateLastShown_concat]

/-! ## Claims about `handleStreamingResponse` -/

/-- C1: for every finite chunk sequence delivered during one send that
completes without error, the assistant message appended to the log has
content exactly `c1 ++ (c2 ++ (… ++ cn))` — the chunks in arrival order,
none dropped or reordered — and the element's final displayed text is the
rendering of that full concatenation. -/
theorem claim_C1 (render : String → String) (s : UIState) (run : StreamRun)
    (h : run.failed = false) :
    (handleStreamingResponse render s run).messageHistory
      = s.messageHistory ++ [⟨Role.assistant, specConcat run.delivered⟩] ∧
    lastShown (handleStreamingResponse render s run)
      = some (render (specConcat run.delivered)) := by
  rw [handleStreamingResponse_eq, h]
  refine ⟨rfl, ?_⟩
  simp [lastShown]

/-- Witness for C1 at the chunks `["He", "llo", "!"]`. -/
theorem claim_C1_witness :
    (handleStreamingResponse id ⟨[], []⟩ ⟨["He", "llo", "!"], false⟩).messageHistory
      = [] ++ [⟨Role.assistant, specConcat ["He", "llo", "!"]⟩] ∧
    lastShown (handleStreamingResponse id ⟨[], []⟩ ⟨["He", "llo", "!"], false⟩)
      = some (id (specConcat ["He", "llo", "!"])) :=
  claim_C1 id ⟨[], []⟩ ⟨["He", "llo", "!"], false⟩ rfl

/-- C9: the message history after `handleStreamingResponse` is exactly the
old history when iterating the stream threw, and gains the single
accumulated assistant entry only when the stream completed without error. -/
theorem claim_C9 (render : String → String) (s : UIState) (run : StreamRun) :
    (handleStreamingResponse render s run).messageHistory =
      if run.failed then s.messageHistory
      else s.messageHistory ++ [⟨Role.assistant, specConcat run.delivered⟩] := by
  rw [handleStreamingResponse_eq]
  cases hf : run.failed <;> simp [hf]

/-- C4 counterexample: a stream that delivers the chunk `"He"` and then
fails.  The claim demands that the assistant message be finalized in the
history with the partial text plus an error marker; the code instead leaves
the history without any assistant message at all, and replaces the displayed
partial text with the fixed string `'Error receiving response'`. -/
theorem claim_C4_cex :
    (handleStreamingResponse id ⟨[⟨Role.user, "hi"⟩], [⟨0, Role.user, "hi"⟩]⟩
        ⟨["He"], true⟩).messageHistory = [⟨Role.user, "hi"⟩] ∧
    lastShown (handleStreamingResponse id ⟨[⟨Role.user, "hi"⟩], [⟨0, Role.user, "hi"⟩]⟩
        ⟨["He"], true⟩) = some "Error receiving response" ∧
    ∀ m ∈ (handleStreamingResponse id ⟨[⟨Role.user, "hi"⟩], [⟨0, Role.user, "hi"⟩]⟩
        ⟨["He"], true⟩).messageHistory, m.role = Role.user := by
  refine ⟨?_, ?_, ?_⟩ <;> simp [handleStreamingResponse_eq, lastShown]

/-- C4 as amended: when the stream fails after partial data, no assistant
message is added to the history (the partial text is discarded from the
transcript, not preserved), and the streaming element's displayed text
becomes the fixed string `'Error receiving response'`; the error is caught
and not re-thrown, so the session is idle afterwards. -/
theorem claim_C4 (render : String → String) (s : UIState) (run : StreamRun)
    (h : run.failed = true) :
    (handleStreamingResponse render s run).messageHistory = s.messageHistory ∧
    lastShown (handleStreamingResponse render s run)
      = some "Error receiving response" := by
  rw [handleStreamingResponse_eq, h]
  refine ⟨rfl, ?_⟩
  simp [lastShown]

/-- Witness for C4 (amended) at the partial chunks `["He"]`. -/
theorem claim_C4_witness :
    (handleStreamingResponse id ⟨[], []⟩ ⟨["He"], true⟩).messageHistory = [] ∧
    lastShown (handleStreamingResponse id ⟨[], []⟩ ⟨["He"], true⟩)
      = some "Error receiving response" :=
  claim_C4 id ⟨[], []⟩ ⟨["He"], true⟩ rfl

/-! ## Claims about `regenerateMessage` -/

/-- The search loop really finds the most recent user message before
`index`: the found position is below `index`, holds a user message, and no
position strictly between it and `index` holds one. -/
theorem findLastUserBefore_spec (history : List Message) :
    ∀ index u, findLastUserBefore history index = some u →
      u < index ∧
      (history.get? u).map Message.role = some Role.user ∧
      ∀ j, u < j → j < index → (history.get? j).map Message.role ≠ some Role.user := by
  intro index
  induction index with
  | zero => intro u h; simp [findLastUserBefore] at h
  | succ i ih =>
    intro u h
    unfold findLastUserBefore at h
    by_cases hc : (history.get? i).map Message.role = some Role.user
    · rw [if_pos hc] at h
      injection h with h
      subst h
      refine ⟨Nat.lt_succ_self _, hc, ?_⟩
      intro j hj1 hj2
      omega
    · rw [if_neg hc] at h
      obtain ⟨h1, h2, h3⟩ := ih u h
      refine ⟨Nat.lt_succ_of_lt h1, h2, ?_⟩
      intro j hj1 hj2
      rcases Nat.lt_succ_iff_lt_or_eq.mp hj2 with hj | hj
      · exact h3 j hj1 hj
      · subst hj; exact hc

/-- C5 counterexample: on the log `[user "q", assistant "x", assistant "y"]`,
`regenerateMessage(2)` is claimed to drop exactly the messages from position
2 onward, preserving positions 0 and 1.  The code instead truncates at the
prior *user* message and also drops `assistant "x"` (position 1 < 2): after a
stream delivering `["z"]`, the log is `[user "q", assistant "z"]`, whose
first two entries differ from those of the original log. -/
theorem claim_C5_cex :
    (regenerateMessage id
        ⟨[⟨Role.user, "q"⟩, ⟨Role.assistant, "x"⟩, ⟨Role.assistant, "y"⟩],
         [⟨0, Role.user, "q"⟩, ⟨1, Role.assistant, "x"⟩, ⟨2, Role.assistant, "y"⟩]⟩
        2 ⟨["z"], false⟩).1.messageHistory
      = [⟨Role.user, "q"⟩, ⟨Role.assistant, "z"⟩] ∧
    ¬ ([⟨Role.user, "q"⟩, ⟨Role.assistant, "z"⟩].take 2
        = [(⟨Role.user, "q"⟩ : Message), ⟨Role.assistant, "x"⟩,
           ⟨Role.assistant, "y"⟩].take 2) := by
  constructor
  · decide
  · decide

/-- C5 as amended: `regenerateMessage(index)` finds the most recent user
message at a position `u < index` (returning silently, with no error and no
state change, when none exists); truncates the log to the first `u + 1`
messages — thereby dropping any messages between `u + 1` and `index` as
well, not only those from `index` onward; resends exactly that user
message's text without appending a duplicate user message; and appends the
newly streamed assistant content.  On `[u0, a0, u1, a1]` with `index = 3`
the result is `[u0, a0, u1, a1']` (see the witness). -/
theorem claim_C5 (render : String → String) (s : UIState) (index : Nat)
    (run : StreamRun) (hfail : run.failed = false) :
    (findLastUserBefore s.messageHistory index = none →
      regenerateMessage render s index run = (s, none)) ∧
    ∀ u, findLastUserBefore s.messageHistory index = some u →
      u < index ∧
      (s.messageHistory.get? u).map Message.role = some Role.user ∧
      (∀ j, u < j → j < index →
        (s.messageHistory.get? j).map Message.role ≠ some Role.user) ∧
      (regenerateMessage render s index run).1.messageHistory
        = s.messageHistory.take (u + 1)
            ++ [⟨Role.assistant, specConcat run.delivered⟩] ∧
      (regenerateMessage render s index run).2
        = (s.messageHistory.get? u).map Message.content := by
  constructor
  · intro h
    simp [regenerateMessage, h]
  · intro u h
    obtain ⟨h1, h2, h3⟩ := findLastUserBefore_spec s.messageHistory index u h
    refine ⟨h1, h2, h3, ?_, ?_⟩
    · simp [regenerateMessage, h, handleStreamingResponse_eq, hfail]
    · simp [regenerateMessage, h]

/-- Witness for C5 (amended): the specification's own regenerate scenario,
`[u0, a0, u1, a1]` with `index = 3` — the found user message is `u1` at
position 2, its text `"q1"` is what gets resent, and the final log is
`[u0, a0, u1]` plus the newly streamed assistant message. -/
theorem claim_C5_witness :
    2 < 3 ∧
    (([⟨Role.user, "q0"⟩, ⟨Role.assistant, "r0"⟩, ⟨Role.user, "q1"⟩,
       ⟨Role.assistant, "r1"⟩] : List Message).get? 2).map Message.role
        = some Role.user ∧
    (∀ j, 2 < j → j < 3 →
      (([⟨Role.user, "q0"⟩, ⟨Role.assistant, "r0"⟩, ⟨Role.user, "q1"⟩,
         ⟨Role.assistant, "r1"⟩] : List Message).get? j).map Message.role
          ≠ some Role.user) ∧
    (regenerateMessage id
        ⟨[⟨Role.user, "q0"⟩, ⟨Role.assistant, "r0"⟩, ⟨Role.user, "q1"⟩,
          ⟨Role.assistant, "r1"⟩],
         [⟨0, Role.user, "q0"⟩, ⟨1, Role.assistant, "r0"⟩, ⟨2, Role.user, "q1"⟩,
          ⟨3, Role.assistant, "r1"⟩]⟩
        3 ⟨["new"], false⟩).1.messageHistory
      = ([⟨Role.user, "q0"⟩, ⟨Role.assistant, "r0"⟩, ⟨Role.user, "q1"⟩,
          ⟨Role.assistant, "r1"⟩] : List Message).take 3
          ++ [⟨Role.assistant, specConcat ["new"]⟩] ∧
    (regenerateMessage id
        ⟨[⟨Role.user, "q0"⟩, ⟨Role.assistant, "r0"⟩, ⟨Role.user, "q1"⟩,
          ⟨Role.assistant, "r1"⟩],
         [⟨0, Role.user, "q0"⟩, ⟨1, Role.assistant, "r0"⟩, ⟨2, Role.user, "q1"⟩,
          ⟨3, Role.assistant, "r1"⟩]⟩
        3 ⟨["new"], false⟩).2
      = (([⟨Role.user, "q0"⟩, ⟨Role.assistant, "r0"⟩, ⟨Role.user, "q1"⟩,
          ⟨Role.assistant, "r1"⟩] : List Message).get? 2).map Message.content :=
  (claim_C5 id
      ⟨[⟨Role.user, "q0"⟩, ⟨Role.assistant, "r0"⟩, ⟨Role.user, "q1"⟩,
        ⟨Role.assistant, "r1"⟩],
       [⟨0, Role.user, "q0"⟩, ⟨1, Role.assistant, "r0"⟩, ⟨2, Role.user, "q1"⟩,
        ⟨3, Role.assistant, "r1"⟩]⟩
      3 ⟨["new"], false⟩ rfl).2 2 (by decide)

/-! ## Claims about displayed sequence numbers -/

/-- A full re-render is always aligned: element `i` carries index `i`. -/
theorem idxAligned_renderMessages (render : String → String) (h : List Message) :
    idxAligned ⟨h, renderMessages render h⟩ := by
  refine ⟨?_, by simp [renderMessages]⟩
  simp only [renderMessages, List.map_map, List.length_map]
  have he : (MsgElem.idx ∘ fun p : Nat × Message => createMessageElement render p.1 p.2)
      = Prod.fst := by
    funext p; rfl
  rw [he, List.enum_map_fst, List.enum_length]

/-- Appending one element whose index is the current log length, together
with one log entry, preserves alignment. -/
theorem idxAligned_extend (s : UIState) (e : MsgElem) (m : Message)
    (hs : idxAligned s) (he : e.idx = s.messageHistory.length) :
    idxAligned ⟨s.messageHistory ++ [m], s.display ++ [e]⟩ := by
  obtain ⟨h1, h2⟩ := hs
  constructor
  · simp only [List.map_append, List.map_cons, List.map_nil, List.length_append,
      List.length_cons, List.length_nil]
    rw [h1, he, h2]
    simp [List.range_succ]
  · simp [h2]

/-- A successful stream preserves alignment: the placeholder element's index
is the log length, and completion pushes exactly one log entry. -/
theorem idxAligned_handleStream (render : String → String) (s : UIState)
    (run : StreamRun) (hfail : run.failed = false) (hs : idxAligned s) :
    idxAligned (handleStreamingResponse render s run) := by
  rw [handleStreamingResponse_eq, hfail]
  simp only [Bool.false_eq_true, if_false]
  exact idxAligned_extend s _ _ hs rfl

/-- Every completed operation whose stream (if any) succeeds preserves
alignment. -/
theorem idxAligned_execOp (render : String → String) (s : UIState) (op : Op)
    (hok : opOk op = true) (hs : idxAligned s) :
    idxAligned (execOp render s op) := by
  cases op with
  | send input run =>
    have hfail : run.failed = false := by
      simpa [opOk] using hok
    show idxAligned (sendMessage render s input run)
    unfold sendMessage
    by_cases hc : jsTrim input = ""
    · simpa [hc] using hs
    · simp only [hc, if_neg, if_false]
      exact idxAligned_handleStream render _ run hfail
        (idxAligned_extend s _ _ hs rfl)
  | regen index run =>
    have hfail : run.failed = false := by
      simpa [opOk] using hok
    show idxAligned (regenerateMessage render s index run).1
    unfold regenerateMessage
    cases hfind : findLastUserBefore s.messageHistory index with
    | none => simpa using hs
    | some u =>
      simp only []
      exact idxAligned_handleStream render _ run hfail
        (idxAligned_renderMessages render _)
  | del index confirmed =>
    show idxAligned (deleteMessage render s index confirmed)
    unfold deleteMessage
    cases confirmed with
    | true => exact idxAligned_renderMessages render _
    | false => simpa using hs

/-- Alignment pins every displayed index to its position. -/
theorem idx_of_aligned (s : UIState) (hs : idxAligned s) (i : Nat)
    (h : i < s.display.length) : (s.display.get ⟨i, h⟩).idx = i := by
  have e1 : (s.display.map MsgElem.idx).get? i = some i := by
    rw [hs.1]
    exact List.get?_range (by simpa using h)
  rw [List.get?_map, List.get?_eq_get h] at e1
  simpa using e1

/-- C7 counterexample: the operation sequence "send whose stream fails, then
send whose stream succeeds", run from a fresh session.  The failed stream
leaves an orphaned assistant element (showing the error text) that is still
counted by the DOM but absent from the log, so the next send creates its
user element with index `messageHistory.length = 1` while three elements are
already displayed: the displayed sequence numbers come out `[0, 1, 1, 2]` —
index 1 is shared by two messages and element 2 does not carry index 2. -/
theorem claim_C7_cex :
    (execOps id ⟨[], []⟩
        [Op.send "a" ⟨["x"], true⟩, Op.send "b" ⟨["y"], false⟩]).display.map
      MsgElem.idx = [0, 1, 1, 2] ∧
    ¬ idxAligned (execOps id ⟨[], []⟩
        [Op.send "a" ⟨["x"], true⟩, Op.send "b" ⟨["y"], false⟩]) := by
  constructor
  · decide
  · decide

/-- C7 as amended: after any sequence of completed `send`, `regenerate` and
`deleteMessage` operations *whose streams all complete without error*,
starting from an aligned state (such as the fresh empty session), the
displayed transcript's sequence numbers are contiguous and strictly
increasing from zero — element `i` carries index `i` — and every log entry
is displayed.  (A failed stream breaks this: see the counterexample.) -/
theorem claim_C7 (render : String → String) (ops : List Op) :
    ∀ s : UIState, idxAligned s → ops.all opOk = true →
      idxAligned (execOps render s ops) ∧
      ∀ i (h : i < (execOps render s ops).display.length),
        ((execOps render s ops).display.get ⟨i, h⟩).idx = i := by
  induction ops with
  | nil =>
    intro s hs _
    exact ⟨hs, fun i h => idx_of_aligned s hs i h⟩
  | cons op ops ih =>
    intro s hs hall
    rw [List.all_cons, Bool.and_eq_true] at hall
    exact ih (execOp render s op) (idxAligned_execOp render s op hall.1 hs) hall.2

/-- Witness for C7 (amended): a successful send followed by a delete, from
the fresh session. -/
theorem claim_C7_witness :
    idxAligned (execOps id ⟨[], []⟩ [Op.send "a" ⟨["x"], false⟩, Op.del 0 true]) ∧
    ∀ i (h : i < (execOps id ⟨[], []⟩
        [Op.send "a" ⟨["x"], false⟩, Op.del 0 true]).display.length),
      ((execOps id ⟨[], []⟩
          [Op.send "a" ⟨["x"], false⟩, Op.del 0 true]).display.get ⟨i, h⟩).idx = i :=
  claim_C7 id [Op.send "a" ⟨["x"], false⟩, Op.del 0 true] ⟨[], []⟩
    (by decide) (by decide)

/-! ## End-to-end and interleaving claims (event-loop model) -/

/-- C2: `send("hi")` on an empty session whose stream yields `"He"`, `"llo"`,
`"!"` and then completes.  In the event-loop model the final log is the user
message followed by `assistant "Hello!"` with no stream left in flight (the
code's idle state); in the sequential UI model the two messages are
displayed with sequence numbers 0 and 1 and the matching contents. -/
theorem claim_C2 :
    stepsRun ⟨[], []⟩
        [Ev.sendStart "hi", Ev.chunk 0 "He", Ev.chunk 0 "llo", Ev.chunk 0 "!",
         Ev.complete 0]
      = ⟨[⟨Role.user, "hi"⟩, ⟨Role.assistant, "Hello!"⟩], []⟩ ∧
    sendMessage id ⟨[], []⟩ "hi" ⟨["He", "llo", "!"], false⟩
      = ⟨[⟨Role.user, "hi"⟩, ⟨Role.assistant, "Hello!"⟩],
         [⟨0, Role.user, "hi"⟩, ⟨1, Role.assistant, "Hello!"⟩]⟩ := by
  constructor
  · decide
  · decide

/-- C3 counterexample: a session with one stream already in flight (buffer
`"He"`).  A further `sendMessage` call does not fail — it changes the log by
appending its user message and opens a second concurrent stream (two streams
in flight), contradicting "fails with BusyError and leaves the message log
and stream state unchanged" and "at most one proceeds past Idle". -/
theorem claim_C3_cex :
    step ⟨[⟨Role.user, "hi"⟩], ["He"]⟩ (Ev.sendStart "again")
      = ⟨[⟨Role.user, "hi"⟩, ⟨Role.user, "again"⟩], ["He", ""]⟩ ∧
    step ⟨[⟨Role.user, "hi"⟩], ["He"]⟩ (Ev.sendStart "again")
      ≠ ⟨[⟨Role.user, "hi"⟩], ["He"]⟩ ∧
    (step ⟨[⟨Role.user, "hi"⟩], ["He"]⟩ (Ev.sendStart "again")).streams.length = 2 := by
  refine ⟨by decide, by decide, by decide⟩

/-- C3 as amended: `sendMessage` performs no busy check (the constructor's
`isStreaming` flag is never consulted); a send issued while streams are in
flight proceeds — it appends its user message to the log and starts one more
concurrent stream, so at least two are then in flight.  No `BusyError`
exists anywhere in the sources. -/
theorem claim_C3 (s : ChatAppState) (input : String)
    (h1 : jsTrim input ≠ "") (h2 : s.streams ≠ []) :
    (step s (Ev.sendStart input)).messageHistory
      = s.messageHistory ++ [⟨Role.user, jsTrim input⟩] ∧
    2 ≤ (step s (Ev.sendStart input)).streams.length := by
  constructor
  · simp [step, h1]
  · have hlen : 0 < s.streams.length := List.length_pos.mpr h2
    simp only [step, h1, if_neg, if_false, List.length_append, List.length_cons,
      List.length_nil]
    omega

/-- Witness for C3 (amended): one stream in flight, a second send issued. -/
theorem claim_C3_witness :
    (step ⟨[], ["x"]⟩ (Ev.sendStart "hi")).messageHistory
      = [] ++ [⟨Role.user, jsTrim "hi"⟩] ∧
    2 ≤ (step ⟨[], ["x"]⟩ (Ev.sendStart "hi")).streams.length :=
  claim_C3 ⟨[], ["x"]⟩ "hi" (by decide) (by decide)

/-- C6 counterexample: with a stream in flight (buffer `"He"`), a confirmed
`deleteMessage(0)` removes the message and changes the log — it does not
fail with `StreamActiveError` and does not leave the log unchanged. -/
theorem claim_C6_cex :
    step ⟨[⟨Role.user, "a"⟩, ⟨Role.user, "b"⟩], ["He"]⟩ (Ev.deleteMsg 0 true)
      = ⟨[⟨Role.user, "b"⟩], ["He"]⟩ ∧
    step ⟨[⟨Role.user, "a"⟩, ⟨Role.user, "b"⟩], ["He"]⟩ (Ev.deleteMsg 0 true)
      ≠ ⟨[⟨Role.user, "a"⟩, ⟨Role.user, "b"⟩], ["He"]⟩ := by
  refine ⟨by decide, by decide⟩

/-- C6 as amended: `deleteMessage` consults nothing but the confirm dialog —
a confirmed delete removes the message at the index even while streams are
in flight; no `StreamActiveError` exists anywhere in the sources. -/
theorem claim_C6 (s : ChatAppState) (index : Nat) (h : s.streams ≠ []) :
    step s (Ev.deleteMsg index true)
      = ⟨s.messageHistory.eraseIdx index, s.streams⟩ := by
  simp [step]

/-- Witness for C6 (amended): delete while one stream is in flight. -/
theorem claim_C6_witness :
    step ⟨[⟨Role.user, "a"⟩], ["He"]⟩ (Ev.deleteMsg 0 true)
      = ⟨([⟨Role.user, "a"⟩] : List Message).eraseIdx 0, ["He"]⟩ :=
  claim_C6 ⟨[⟨Role.user, "a"⟩], ["He"]⟩ 0 (by decide)

/-! ## Cancellation (specification-modelled) -/

/-- C8, against the specification-modelled controller (no cancel exists in
the sources): cancelling after the chunks `c1, c2` have been received while
`Streaming` finalizes the assistant message with exactly `c1 ++ c2` (not
empty, not discarded) and returns the state to `Idle`; cancel is also valid
while `Sending` (returning to `Idle`); it is a no-op, not an error, while
`Idle`; and after cancellation no further chunk is consumed. -/
theorem claim_C8 (s : SpecSession) (c1 c2 : String)
    (hst : s.streamState = StreamState.Streaming) (hb : s.buffer = some "") :
    (cancel (specChunk (specChunk s c1) c2)).messages
      = s.messages ++ [⟨Role.assistant, c1 ++ c2⟩] ∧
    (cancel (specChunk (specChunk s c1) c2)).streamState = StreamState.Idle ∧
    (∀ t : SpecSession, t.streamState = StreamState.Idle → cancel t = t) ∧
    (∀ t : SpecSession, t.streamState = StreamState.Sending →
      (cancel t).streamState = StreamState.Idle) ∧
    (∀ c, specChunk (cancel (specChunk (specChunk s c1) c2)) c
      = cancel (specChunk (specChunk s c1) c2)) := by
  obtain ⟨msgs, st, buf⟩ := s
  simp only at hst hb
  subst hst
  subst hb
  refine ⟨?_, ?_, ?_, ?_, ?_⟩
  · simp [specChunk, cancel]
  · simp [specChunk, cancel]
  · intro t ht
    obtain ⟨m, st', b⟩ := t
    cases st' <;> simp_all [cancel]
  · intro t ht
    obtain ⟨m, st', b⟩ := t
    cases st' <;> simp_all [cancel]
  · intro c
    simp [specChunk, cancel]

/-- Witness for C8 at the chunks `"He"`, `"llo"`. -/
theorem claim_C8_witness :
    (cancel (specChunk (specChunk ⟨[], StreamState.Streaming, some ""⟩ "He") "llo")).messages
      = [] ++ [⟨Role.assistant, "He" ++ "llo"⟩] ∧
    (cancel (specChunk (specChunk ⟨[], StreamState.Streaming, some ""⟩ "He") "llo")).streamState
      = StreamState.Idle ∧
    (∀ t : SpecSession, t.streamState = StreamState.Idle → cancel t = t) ∧
    (∀ t : SpecSession, t.streamState = StreamState.Sending →
      (cancel t).streamState = StreamState.Idle) ∧
    (∀ c, specChunk (cancel (specChunk
        (specChunk ⟨[], StreamState.Streaming, some ""⟩ "He") "llo")) c
      = cancel (specChunk (specChunk ⟨[], StreamState.Streaming, some ""⟩ "He") "llo")) :=
  claim_C8 ⟨[], StreamState.Streaming, some ""⟩ "He" "llo" rfl rfl

/-! ## `parseJsonl` -/

/-- The loop body of `parseJsonl` adds exactly one line's contribution. -/
theorem parseJsonl_body_eq {α : Type} (p : String → Option (JsonLine α))
    (acc : List α) (line : String) :
    (if jsTrim line = "" then acc
     else
       match p line with
       | none => acc
       | some obj =>
         if obj.info then acc
         else
           match obj.chatsMessages with
           | some msgs => acc ++ msgs
           | none => acc)
      = acc ++ lineMessages p line := by
  unfold lineMessages
  by_cases h1 : jsTrim line = ""
  · simp [h1]
  · simp only [h1, if_neg, if_false]
    cases p line with
    | none => simp
    | some obj =>
      obtain ⟨inf, cm⟩ := obj
      by_cases h2 : inf
      · simp [h2]
      · cases cm <;> simp [h2]

/-- Folding "append this line's contribution" over the lines concatenates
all contributions in order. -/
theorem foldl_append_flatten {α β : Type} (f : β → List α) :
    ∀ (lines : List β) (acc : List α),
      lines.foldl (fun a l => a ++ f l) acc = acc ++ (lines.map f).flatten := by
  intro lines
  induction lines with
  | nil => intro acc; simp
  | cons l ls ih =>
    intro acc
    simp [List.foldl_cons, ih (acc ++ f l)]

/-- C10: `parseJsonl` is a total function — every input, including `null`
(`none`), the empty string, blank lines and lines `JSON.parse` rejects,
yields a list and no exception escapes (the throwing paths are the `none`
branches of the abstract parse) — and its result is exactly the in-order
concatenation of the `chats.messages` arrays of the well-formed lines:
blank lines, unparseable lines and objects with a truthy `info` contribute
nothing. -/
theorem claim_C10 {α : Type} (p : String → Option (JsonLine α))
    (jsonlText : Option String) :
    parseJsonl p jsonlText = parseJsonlSpecResult p jsonlText := by
  cases jsonlText with
  | none => rfl
  | some t =>
    unfold parseJsonl parseJsonlSpecResult
    by_cases ht : t = ""
    · simp [ht]
    · simp only [ht, if_neg, if_false]
      have hbody :
          (fun (acc : List α) (line : String) =>
            if jsTrim line = "" then acc
            else
              match p line with
              | none => acc
              | some obj =>
                if obj.info then acc
                else
                  match obj.chatsMessages with
                  | some msgs => acc ++ msgs
                  | none => acc)
            = fun (acc : List α) (line : String) => acc ++ lineMessages p line := by
        funext acc line
        exact parseJsonl_body_eq p acc line
      rw [hbody, foldl_append_flatten]
      simp

end ChatAi
